import Mathlib

/-!
Verification of the kim_temp sensor-telemetry pipeline
(`src/kim_temp/src/main.rs` and the `bin/` helpers).

Modelling conventions:
* Rust `f32`/`f64` arithmetic is modelled over `ℚ`.  All numeric literals
  appearing in the claims (12.5, 0.1, 150.0, 500.0, …) are exactly
  representable in binary floating point, and no claim depends on rounding,
  so the rational model is faithful on the inputs the claims speak about.
  Where parsed `f64` values can be non-finite (the powermetrics text
  channel) we use the explicit `FV` type which carries NaN and infinities.
* Fallible Rust code (`Result`, `Option`, a possible `unwrap` panic) is
  modelled with `Option`; `none` at the top level of a tick means the tick
  aborts (panics) instead of emitting a record.
* Sensor keys are `FourCharCode` values, i.e. 32-bit words whose
  big-endian bytes are rendered through `String::from_utf8_lossy`.
  The classification code only ever inspects that string through
  `starts_with` of 2-character ASCII literals, equality with the ASCII
  literal "TSCD", or `starts_with('T')`; for every byte sequence, the
  lossy-decoded string satisfies such a test iff the corresponding raw
  bytes are exactly the ASCII bytes of the literal (an ASCII byte decodes
  to itself, and any non-ASCII byte decodes to a character ≥ U+0080).
  `Key4` therefore records the four raw bytes and the classifiers are
  stated on bytes; the full lossy decoder is also implemented (`utf8Lossy`)
  for the key round-trip claim.
-/

/-- The zone enumeration of the spec: CPU, GPU, Memory, Storage, Battery or
unclassified. -/
inductive Zone where
  | cpu
  | gpu
  | memory
  | storage
  | battery
  | unclassified
deriving DecidableEq, Repr

/-- A `FourCharCode` seen as its four big-endian bytes
(`key.0.to_be_bytes()` in `key_to_string`). -/
structure Key4 where
  b0 : Nat
  b1 : Nat
  b2 : Nat
  b3 : Nat
deriving DecidableEq, Repr

/-- Byte values of the ASCII characters used by the prefix rules. -/
def asciiT : Nat := 84

/-- `key_str.starts_with("Xy")` on the lossy-decoded key string, at byte
level: the first byte is `c0` and the second is `c1` (both ASCII). -/
def startsWith2 (k : Key4) (c0 c1 : Nat) : Bool :=
  k.b0 = c0 && k.b1 = c1

/-- `key_str == "TSCD"` at byte level (all four bytes ASCII). -/
def isTSCD (k : Key4) : Bool :=
  k.b0 = 84 && k.b1 = 83 && k.b2 = 67 && k.b3 = 68

/-- The composite classifier of `json` mode (main.rs:221-240): inside the
`starts_with('T')` guard, the first matching rule of the else-if chain
  `Tp|Te|Tc → cpu`, `Tg → gpu`, `TM|Tm → memory`, `TS|TSCD → storage`,
  `TB → battery`
wins; anything else is not pushed into any zone list (Unclassified). -/
def jsonClassify (k : Key4) : Zone :=
  if k.b0 = asciiT then
    if startsWith2 k 84 112 || startsWith2 k 84 101 || startsWith2 k 84 99 then Zone.cpu
    else if startsWith2 k 84 103 then Zone.gpu
    else if startsWith2 k 84 77 || startsWith2 k 84 109 then Zone.memory
    else if startsWith2 k 84 83 || isTSCD k then Zone.storage
    else if startsWith2 k 84 66 then Zone.battery
    else Zone.unclassified
  else Zone.unclassified

/-- The identical classifier chain of `stream` mode (main.rs:478-497). -/
def streamClassify (k : Key4) : Zone :=
  if k.b0 = asciiT then
    if startsWith2 k 84 112 || startsWith2 k 84 101 || startsWith2 k 84 99 then Zone.cpu
    else if startsWith2 k 84 103 then Zone.gpu
    else if startsWith2 k 84 77 || startsWith2 k 84 109 then Zone.memory
    else if startsWith2 k 84 83 || isTSCD k then Zone.storage
    else if startsWith2 k 84 66 then Zone.battery
    else Zone.unclassified
  else Zone.unclassified

/-- `cpu` mode primary filter (main.rs:50-51):
`starts_with("Tp") || starts_with("Te") || starts_with("Tc") || starts_with("TC")`. -/
def cpuModeMatch (k : Key4) : Bool :=
  startsWith2 k 84 112 || startsWith2 k 84 101 || startsWith2 k 84 99 || startsWith2 k 84 67

/-- `cpu` mode fallback filter (main.rs:63), used only when the primary
filter produced no readings: `starts_with('T')`. -/
def cpuModeFallbackMatch (k : Key4) : Bool :=
  k.b0 = asciiT

/-- `gpu` mode filter (main.rs:86): `starts_with("Tg") || starts_with("TG")`. -/
def gpuModeMatch (k : Key4) : Bool :=
  startsWith2 k 84 103 || startsWith2 k 84 71

/-- `battery` mode filter (main.rs:109): `starts_with("TB")`. -/
def batteryModeMatch (k : Key4) : Bool :=
  startsWith2 k 84 66

/-- `memory` mode filter (main.rs:132): `starts_with("TM") || starts_with("Tm")`. -/
def memoryModeMatch (k : Key4) : Bool :=
  startsWith2 k 84 77 || startsWith2 k 84 109

/-- `ssd` mode filter (main.rs:155): `starts_with("TS") || key_str == "TSCD"`. -/
def ssdModeMatch (k : Key4) : Bool :=
  startsWith2 k 84 83 || isTSCD k

/-- The per-mode collection loop shared by the single-zone commands
(e.g. main.rs:46-58): push each successfully read temperature that is
strictly inside the valid range.  `readings` are the successful
`smc.temperature` values of the keys that passed the mode's prefix filter. -/
def collectTemps (lo hi : ℚ) (readings : List ℚ) : List ℚ :=
  readings.foldl (fun acc t => if lo < t ∧ t < hi then acc ++ [t] else acc) []

/-- The single-zone aggregate (main.rs:73-78): `None` when no reading
survived the range filter (the caller prints "N/A"), otherwise the
arithmetic mean `temps.iter().sum() / temps.len()`. -/
def aggregateZone (lo hi : ℚ) (readings : List ℚ) : Option ℚ :=
  let temps := collectTemps lo hi readings
  if temps.isEmpty then none else some (temps.sum / temps.length)

/-- What a single-zone command prints (main.rs:73-78): either the formatted
average or the literal marker "N/A". -/
inductive CliOut where
  | na
  | val (q : ℚ)
deriving DecidableEq, Repr

/-- `cpu` mode output for a given list of successfully read primary-filter
temperatures (formatting of the number is elided). -/
def cpuModeOut (readings : List ℚ) : CliOut :=
  match aggregateZone 0 150 readings with
  | none => CliOut.na
  | some a => CliOut.val a

/-- The zone average of `json`/`stream` mode (main.rs:242-246, 499-503):
`if temps.is_empty() { 0.0 } else { sum / len }` — the 0.0 default is
substituted inline, no absence marker is emitted. -/
def jsonZoneAvg (temps : List ℚ) : ℚ :=
  if temps.isEmpty then 0 else temps.sum / temps.length

/-- The five per-zone reading lists built by the `json`/`stream`
collection loop. -/
structure ZoneLists where
  cpu_temps : List ℚ
  gpu_temps : List ℚ
  mem_temps : List ℚ
  ssd_temps : List ℚ
  bat_temps : List ℚ
deriving DecidableEq, Repr

/-- One iteration of the `json`/`stream` collection loop
(main.rs:221-240 and 478-497): skip failed reads, require the `'T'`
prefix and the (0,150) range, then push into the first matching zone's
list; keys matching no rule are dropped. -/
def jsonCollectStep (acc : ZoneLists) (r : Key4 × Option ℚ) : ZoneLists :=
  match r.2 with
  | none => acc
  | some temp =>
    if r.1.b0 = asciiT then
      if 0 < temp ∧ temp < 150 then
        if startsWith2 r.1 84 112 || startsWith2 r.1 84 101 || startsWith2 r.1 84 99 then
          { acc with cpu_temps := acc.cpu_temps ++ [temp] }
        else if startsWith2 r.1 84 103 then
          { acc with gpu_temps := acc.gpu_temps ++ [temp] }
        else if startsWith2 r.1 84 77 || startsWith2 r.1 84 109 then
          { acc with mem_temps := acc.mem_temps ++ [temp] }
        else if startsWith2 r.1 84 83 || isTSCD r.1 then
          { acc with ssd_temps := acc.ssd_temps ++ [temp] }
        else if startsWith2 r.1 84 66 then
          { acc with bat_temps := acc.bat_temps ++ [temp] }
        else acc
      else acc
    else acc

/-- The `json`/`stream` collection loop over one poll cycle's readings
(`(key, smc.temperature(key).ok())` pairs, in key order). -/
def jsonCollect (rs : List (Key4 × Option ℚ)) : ZoneLists :=
  rs.foldl jsonCollectStep ⟨[], [], [], [], []⟩

/-- The reading a pair contributes to zone `z`, per the total classifier:
kept iff the read succeeded, the value is strictly inside (0,150) and the
key classifies to `z`. -/
def zoneContribution (z : Zone) (r : Key4 × Option ℚ) : Option ℚ :=
  match r.2 with
  | none => none
  | some t => if jsonClassify r.1 = z ∧ 0 < t ∧ t < 150 then some t else none

/-- `get_display_power` (bin/calibrate_content.rs:18-26): the residual
power model.  Each SMC read is `unwrap_or(0.0)`; the residual
`(pstr - cpu - gpu - mem).max(0.0)` is converted to milliwatts by the
trailing `* 1000.0`. -/
def get_display_power (pstr cpu gpu mem : Option ℚ) : ℚ :=
  max ((pstr.getD 0) - (cpu.getD 0) - (gpu.getD 0) - (mem.getD 0)) 0 * 1000

/-- The efficiency field of `json` and `stream` modes (main.rs:363-364 and
546-547): `if sys_power > 0.1 { battery_wh / sys_power } else { 99.0 }`.
(The literal threshold `0.1_f32` is modelled as the exact rational 1/10;
only its strict positivity matters to the guard.) -/
def efficiencyCalc (battery_wh sys_power : ℚ) : ℚ :=
  if 1/10 < sys_power then battery_wh / sys_power else 99

/-- `blind_scan` delta test (bin/blind_scan.rs:43): a key is reported as a
MATCH iff `delta.abs() > 500.0` where `delta = val - base` — a strict
comparison. -/
def blindScanMatch (val base : ℚ) : Bool :=
  decide (500 < |val - base|)

/-! ### Text processing for the external collaborators

The stream/json modes scrape line-oriented text from `powermetrics`,
`pmset` and `vm_stat`.  Strings are modelled as `List Char`; `f64` values
obtained by `str::parse` are modelled by `FV` (exact rationals plus NaN
and the infinities — decimal text is mapped to the exact rational it
denotes; `f64` rounding and overflow-to-infinity are not modelled, and no
claim depends on them).  Rust's `split_whitespace` is modelled with the
ASCII whitespace characters, which are the only ones the claims use. -/

/-- Shorthand for turning a Lean string literal into the character-list
model used throughout. -/
def strLit (s : String) : List Char := s.data

/-- ASCII whitespace test (models `char::is_whitespace` on the inputs the
claims use). -/
def isWs (c : Char) : Bool :=
  c = ' ' || c = '\t' || c = '\n' || c = '\r'

/-- `str::trim`. -/
def trimStr (l : List Char) : List Char :=
  ((l.dropWhile isWs).reverse.dropWhile isWs).reverse

/-- `str::trim_end_matches('.')`: drop every trailing dot. -/
def trimEndDots (l : List Char) : List Char :=
  (l.reverse.dropWhile (fun c => c = '.')).reverse

/-- `str::split(c)`: the list of separator-delimited segments (possibly
empty segments included, one more segment than separators). -/
def splitOnChar (c : Char) : List Char → List (List Char)
  | [] => [[]]
  | x :: xs =>
    if x = c then [] :: splitOnChar c xs
    else
      match splitOnChar c xs with
      | [] => [[x]]
      | h :: t => (x :: h) :: t

/-- Accumulator-based worker for `split_whitespace`. -/
def splitWsAux : List Char → List Char → List (List Char)
  | [], cur => if cur.isEmpty then [] else [cur.reverse]
  | c :: rest, cur =>
    if isWs c then
      if cur.isEmpty then splitWsAux rest [] else cur.reverse :: splitWsAux rest []
    else splitWsAux rest (c :: cur)

/-- `str::split_whitespace`: maximal non-whitespace runs, no empties. -/
def splitWs (l : List Char) : List (List Char) := splitWsAux l []

/-- Boolean prefix test (`str::starts_with`), first argument the prefix. -/
def isPrefixB : List Char → List Char → Bool
  | [], _ => true
  | _ :: _, [] => false
  | a :: as, b :: bs => a = b && isPrefixB as bs

/-- Boolean substring test (`str::contains`). -/
def containsB (hay pat : List Char) : Bool :=
  isPrefixB pat hay ||
    match hay with
    | [] => false
    | _ :: t => containsB t pat

/-- `str::lines`: split on `'\n'`, strip a `'\r'` left at the end of a
line by a `"\r\n"` terminator, and drop the empty segment produced by a
trailing newline. -/
def stripCR (l : List Char) : List Char :=
  if l.getLast? = some '\r' then l.dropLast else l

/-- `str::lines` (see `stripCR`). -/
def rustLines (s : List Char) : List (List Char) :=
  let segs := splitOnChar '\n' s
  match segs.reverse with
  | [] => []
  | lastSeg :: revInit =>
    let front := (revInit.reverse).map stripCR
    if lastSeg.isEmpty then front else front ++ [lastSeg]

/-- ASCII decimal digit test. -/
def isDigitB (c : Char) : Bool := 48 ≤ c.toNat && c.toNat ≤ 57

/-- All characters are decimal digits. -/
def allDigits (l : List Char) : Bool := l.all isDigitB

/-- Value of a digit string. -/
def digitsVal (l : List Char) : Nat :=
  l.foldl (fun a c => a * 10 + (c.toNat - 48)) 0

/-- `str::parse::<i32>`: optional sign, nonempty digit run, i32 range
check (out-of-range input is a parse error in Rust). -/
def parseI32 (tok : List Char) : Option Int :=
  match tok with
  | '+' :: ds =>
    if !ds.isEmpty ∧ allDigits ds ∧ digitsVal ds ≤ 2 ^ 31 - 1 then some (digitsVal ds) else none
  | '-' :: ds =>
    if !ds.isEmpty ∧ allDigits ds ∧ digitsVal ds ≤ 2 ^ 31 then some (-(digitsVal ds : Int)) else none
  | ds =>
    if !ds.isEmpty ∧ allDigits ds ∧ digitsVal ds ≤ 2 ^ 31 - 1 then some (digitsVal ds) else none

/-- `str::parse::<u64>`: optional `'+'`, nonempty digit run, u64 range. -/
def parseU64 (tok : List Char) : Option Nat :=
  match tok with
  | '+' :: ds =>
    if !ds.isEmpty ∧ allDigits ds ∧ digitsVal ds ≤ 2 ^ 64 - 1 then some (digitsVal ds) else none
  | '-' :: _ => none
  | ds =>
    if !ds.isEmpty ∧ allDigits ds ∧ digitsVal ds ≤ 2 ^ 64 - 1 then some (digitsVal ds) else none

/-- An `f64` value as produced by `str::parse::<f64>`: an exact finite
value, NaN, or an infinity. -/
inductive FV where
  | num (q : ℚ)
  | nan
  | inf
  | ninf
deriving DecidableEq, Repr

/-- Negation of a parsed value (for a leading `'-'`). -/
def fvNeg : FV → FV
  | FV.num q => FV.num (-q)
  | FV.nan => FV.nan
  | FV.inf => FV.ninf
  | FV.ninf => FV.inf

/-- IEEE-754 addition on parsed values (used for `total_wakeups +=`). -/
def fvAdd : FV → FV → FV
  | FV.num a, FV.num b => FV.num (a + b)
  | FV.num _, FV.nan => FV.nan
  | FV.num _, FV.inf => FV.inf
  | FV.num _, FV.ninf => FV.ninf
  | FV.nan, _ => FV.nan
  | FV.inf, FV.num _ => FV.inf
  | FV.inf, FV.inf => FV.inf
  | FV.inf, FV.ninf => FV.nan
  | FV.inf, FV.nan => FV.nan
  | FV.ninf, FV.num _ => FV.ninf
  | FV.ninf, FV.inf => FV.nan
  | FV.ninf, FV.ninf => FV.ninf
  | FV.ninf, FV.nan => FV.nan

/-- IEEE-754 strict `>` (false whenever NaN is involved). -/
def fvGt : FV → FV → Bool
  | FV.num a, FV.num b => decide (b < a)
  | FV.num _, FV.ninf => true
  | FV.inf, FV.num _ => true
  | FV.inf, FV.ninf => true
  | _, _ => false

/-- `f64::partial_cmp`: `none` exactly when either side is NaN. -/
def fvCmp : FV → FV → Option Ordering
  | FV.nan, _ => none
  | FV.num _, FV.nan => none
  | FV.inf, FV.nan => none
  | FV.ninf, FV.nan => none
  | FV.num a, FV.num b => some (compare a b)
  | FV.num _, FV.inf => some Ordering.lt
  | FV.num _, FV.ninf => some Ordering.gt
  | FV.inf, FV.num _ => some Ordering.gt
  | FV.inf, FV.inf => some Ordering.eq
  | FV.inf, FV.ninf => some Ordering.gt
  | FV.ninf, FV.num _ => some Ordering.lt
  | FV.ninf, FV.inf => some Ordering.lt
  | FV.ninf, FV.ninf => some Ordering.eq

/-- Truncation toward zero of a rational (the rounding of an `as`-cast). -/
def truncQ (q : ℚ) : Int := if 0 ≤ q then ⌊q⌋ else ⌈q⌉

/-- Rust `v as i32` on an `f64`: saturating truncation, NaN to 0. -/
def fvToI32 : FV → Int
  | FV.num q => max (-(2 ^ 31)) (min (2 ^ 31 - 1) (truncQ q))
  | FV.nan => 0
  | FV.inf => 2 ^ 31 - 1
  | FV.ninf => -(2 ^ 31)

/-- Saturating `as i32` on a finite value (for `mem_free_pct`). -/
def i32cast (q : ℚ) : Int := max (-(2 ^ 31)) (min (2 ^ 31 - 1) (truncQ q))

/-- Lower-case an ASCII letter (for the case-insensitive `f64` grammar). -/
def lowerChar (c : Char) : Char :=
  if 65 ≤ c.toNat ∧ c.toNat ≤ 90 then Char.ofNat (c.toNat + 32) else c

/-- Mantissa of the `f64` grammar:
`Digit+ | Digit+ '.' Digit* | Digit* '.' Digit+`, as an exact rational. -/
def parseMantissa (l : List Char) : Option ℚ :=
  match splitOnChar '.' l with
  | [ip] =>
    if !ip.isEmpty ∧ allDigits ip then some (digitsVal ip) else none
  | [ip, fp] =>
    if (!ip.isEmpty || !fp.isEmpty) ∧ allDigits ip ∧ allDigits fp then
      some ((digitsVal ip : ℚ) + (digitsVal fp : ℚ) / 10 ^ fp.length)
    else none
  | _ => none

/-- Exponent part of the `f64` grammar: optional sign then digits. -/
def parseExp (l : List Char) : Option Int :=
  match l with
  | '+' :: ds => if !ds.isEmpty ∧ allDigits ds then some (digitsVal ds) else none
  | '-' :: ds => if !ds.isEmpty ∧ allDigits ds then some (-(digitsVal ds : Int)) else none
  | ds => if !ds.isEmpty ∧ allDigits ds then some (digitsVal ds) else none

/-- Number part of the `f64` grammar: mantissa with optional exponent. -/
def parseNumPart (l : List Char) : Option ℚ :=
  match splitOnChar 'e' l with
  | [m] => parseMantissa m
  | [m, e] =>
    match parseMantissa m, parseExp e with
    | some q, some ex => some (q * (10 : ℚ) ^ ex)
    | _, _ => none
  | _ => none

/-- Unsigned part of `str::parse::<f64>` on an already lower-cased token:
`inf`, `infinity`, `nan` or a number. -/
def parseF64core (l : List Char) : Option FV :=
  if l = strLit "inf" ∨ l = strLit "infinity" then some FV.inf
  else if l = strLit "nan" then some FV.nan
  else (parseNumPart l).map FV.num

/-- `str::parse::<f64>` (case-insensitive, optional sign). -/
def parseF64 (tok : List Char) : Option FV :=
  match tok.map lowerChar with
  | '+' :: rest => parseF64core rest
  | '-' :: rest => (parseF64core rest).map fvNeg
  | lt => parseF64core lt

/-! ### The powermetrics slow channel (main.rs:549-587; same code one-shot
in `json` mode, main.rs:252-421) -/

/-- A parsed process row of the powermetrics tasks table:
`(name, cpu_ms, wakeups)`. -/
structure Proc where
  name : List Char
  cpu_ms : FV
  wakeups : FV
deriving DecidableEq, Repr

/-- The process names excluded from the top list (main.rs:577). -/
def skipNames : List (List Char) :=
  [strLit "kernel_task", strLit "powerd", strLit "powermetrics", strLit "launchd"]

/-- The tasks-section scan over the powermetrics lines
(main.rs:564-582): arm on a line starting with "Name", stop on
"ALL_TASKS"/"CPU Power", and for each armed non-blank line with at least
8 whitespace fields whose second field parses as an i32 PID, add the
wakeups to the running total and append the process row unless its name
is on the skip list. -/
def tasksLoop : List (List Char) → Bool → FV → List Proc → FV × List Proc
  | [], _, tw, ps => (tw, ps)
  | line :: rest, inTasks, tw, ps =>
    if isPrefixB (strLit "Name") line then tasksLoop rest true tw ps
    else if isPrefixB (strLit "ALL_TASKS") line || isPrefixB (strLit "CPU Power") line then
      (tw, ps)
    else if inTasks && !(trimStr line).isEmpty then
      match splitWs line with
      | parts =>
        if 8 ≤ parts.length ∧ (parseI32 (parts.getD 1 [])).isSome then
          let nm := parts.getD 0 []
          let cpu_ms := (parseF64 (parts.getD 2 [])).getD (FV.num 0)
          let w := (parseF64 (parts.getD 6 [])).getD (FV.num 0)
          if nm ∈ skipNames then tasksLoop rest inTasks (fvAdd tw w) ps
          else tasksLoop rest inTasks (fvAdd tw w) (ps ++ [Proc.mk nm cpu_ms w])
        else tasksLoop rest inTasks tw ps
    else tasksLoop rest inTasks tw ps

/-- The sort comparator succeeds strictly: `a` must precede `b` iff
`b.cpu_ms.partial_cmp(a.cpu_ms) == Less` (descending by cpu time). -/
def procLt (a b : Proc) : Bool :=
  match fvCmp b.cpu_ms a.cpu_ms with
  | some Ordering.lt => true
  | _ => false

/-- Stable insertion into a sorted list (descending by `cpu_ms`). -/
def insertProc (x : Proc) : List Proc → List Proc
  | [] => [x]
  | y :: ys => if procLt x y then x :: y :: ys else y :: insertProc x ys

/-- Does some row carry a NaN `cpu_ms`?  `f64::partial_cmp` returns
`None` exactly on NaN, making the `unwrap` in
`sort_by(|a, b| b.1.partial_cmp(&a.1).unwrap())` (main.rs:584, 399) panic. -/
def anyNanCpu (ps : List Proc) : Bool :=
  ps.any (fun p => p.cpu_ms = FV.nan)

/-- `processes.sort_by(|a, b| b.1.partial_cmp(&a.1).unwrap())`
(main.rs:584; identically main.rs:399).  With at least two rows every row
takes part in at least one comparison, so a NaN `cpu_ms` makes the
`unwrap` panic — modelled as `none`.  Otherwise the comparator is total
and the stable sort succeeds. -/
def sortProcs (ps : List Proc) : Option (List Proc) :=
  if 2 ≤ ps.length ∧ anyNanCpu ps = true then none
  else some (ps.foldl (fun acc x => insertProc x acc) [])

/-- The cached slow-channel fields of the stream loop (main.rs:453-458);
the `top_cpu`/`high_wakeups` JSON arrays are modelled as the process
lists they are rendered from. -/
structure SlowFields where
  cpu_mw : Int
  gpu_mw : Int
  ane_mw : Int
  total_wakeups : FV
  top : List Proc
  high : List Proc
deriving DecidableEq, Repr

/-- Initial cache before the first tick (main.rs:453-458). -/
def initCache : SlowFields := ⟨0, 0, 0, FV.num 0, [], []⟩

/-- One `cached_*_mw` extraction (main.rs:560-562): the first line
containing the label, its first token parsing as `f64`, cast `as i32`,
default 0. -/
def powerField (pm label : List Char) : Int :=
  (((((rustLines pm).find? (fun l => containsB l label)).bind
      (fun l => (splitWs l).find? (fun s => (parseF64 s).isSome))).bind
        parseF64).map fvToI32).getD 0

/-- The whole slow-channel computation of one boundary tick
(main.rs:553-586): power fields, tasks scan, the fallible sort, then the
top-5 and high-wakeups (> 50/s) lists.  `none` = the sort panicked. -/
def computeSlow (pm : List Char) : Option SlowFields :=
  let cpu := powerField pm (strLit "CPU Power:")
  let gpu := powerField pm (strLit "GPU Power:")
  let ane := powerField pm (strLit "ANE Power:")
  let tp := tasksLoop (rustLines pm) false (FV.num 0) []
  match sortProcs tp.2 with
  | none => none
  | some sorted =>
    some ⟨cpu, gpu, ane, tp.1, sorted.take 5,
          (sorted.filter (fun p => fvGt p.wakeups (FV.num 50))).take 5⟩

/-! ### The fast channel (main.rs:465-547) -/

/-- `battery_pct` from the pmset output (main.rs:513-518): text before
the first `'%'`, its last whitespace token, parsed as i32, default 0. -/
def batteryPctOf (out : List Char) : Int :=
  (((splitWs ((splitOnChar '%' out).headD [])).getLast?).bind parseI32).getD 0

/-- `charging` from the pmset output (main.rs:520-521). -/
def chargingOf (out : List Char) : Bool :=
  containsB out (strLit "; charging;") ||
    (containsB out (strLit "AC Power") && !containsB out (strLit "discharging"))

/-- One `Pages …:` field of the vm_stat output (main.rs:535-539). -/
def vmFieldVal (line : List Char) : Nat :=
  ((parseU64 (trimEndDots (trimStr ((splitOnChar ':' line).getD 1 []))))).getD 0

/-- The vm_stat scan (main.rs:533-541): the last occurrence of each of
the three page counters wins; missing counters stay 0. -/
def vmPages (out : List Char) : Nat × Nat × Nat :=
  (rustLines out).foldl
    (fun acc line =>
      if isPrefixB (strLit "Pages free:") line then (vmFieldVal line, acc.2.1, acc.2.2)
      else if isPrefixB (strLit "Pages inactive:") line then (acc.1, vmFieldVal line, acc.2.2)
      else if isPrefixB (strLit "Pages speculative:") line then (acc.1, acc.2.1, vmFieldVal line)
      else acc)
    (0, 0, 0)

/-- `mem_free_pct` (main.rs:542-544): free bytes at 16 KiB pages over an
assumed 16 GiB total, times 100, cast `as i32`.  (The `u64 → f64`
conversions are modelled exactly; no claim depends on their rounding.) -/
def memFreePct (out : List Char) : Int :=
  let p := vmPages out
  i32cast ((((p.1 + p.2.1 + p.2.2) * 16384 : ℕ) : ℚ) / ((16 * 1024 * 1024 * 1024 : ℕ) : ℚ) * 100)

/-- The fresh per-tick fields of the emitted record. -/
structure FastFields where
  cpu_temp : ℚ
  gpu_temp : ℚ
  mem_temp : ℚ
  ssd_temp : ℚ
  bat_temp : ℚ
  power_w : ℚ
  battery_pct : Int
  charging : Bool
  mem_free_pct : Int
  efficiency_hrs : ℚ
deriving DecidableEq, Repr

/-- Everything one tick of the stream loop reads from the outside world:
the PSTR power read (`none` = failed read), the per-key temperature reads
in key order, and the three collaborator texts.  (`pm_out` is only
consumed on slow-channel boundary ticks.) -/
structure TickInput where
  pstr : Option ℚ
  temps : List (Key4 × Option ℚ)
  battery_out : List Char
  vm_out : List Char
  pm_out : List Char
deriving DecidableEq, Repr

/-- The fast-channel computation of one tick (main.rs:465-547): zone
averages over the freshly collected readings, raw system power
(`unwrap_or(0.0)`), battery and memory parsing, efficiency. -/
def computeFast (battery_wh : ℚ) (inp : TickInput) : FastFields :=
  let sys_power := inp.pstr.getD 0
  let z := jsonCollect inp.temps
  { cpu_temp := jsonZoneAvg z.cpu_temps
  , gpu_temp := jsonZoneAvg z.gpu_temps
  , mem_temp := jsonZoneAvg z.mem_temps
  , ssd_temp := jsonZoneAvg z.ssd_temps
  , bat_temp := jsonZoneAvg z.bat_temps
  , power_w := sys_power
  , battery_pct := batteryPctOf inp.battery_out
  , charging := chargingOf inp.battery_out
  , mem_free_pct := memFreePct inp.vm_out
  , efficiency_hrs := efficiencyCalc battery_wh sys_power }

/-- The composite per-tick record (the printed JSON line, main.rs:590-591,
split into its fresh and cached halves). -/
structure Record where
  fast : FastFields
  slow : SlowFields
deriving DecidableEq, Repr

/-- The loop-carried state of stream mode: the tick counter and the
cached slow-channel fields. -/
structure StreamState where
  cycle : Nat
  cache : SlowFields
deriving DecidableEq, Repr

/-- State before the first tick (main.rs:453-460). -/
def initState : StreamState := ⟨0, initCache⟩

/-- One iteration of the stream loop (main.rs:462-597): bump the counter,
compute the fast channel fresh, recompute the slow channel only when
`cycle_count % 5 == 1`, and emit the record built from the (possibly
carried-over) cache.  `none` = the tick panicked inside the slow channel. -/
def streamTick (battery_wh : ℚ) (st : StreamState) (inp : TickInput) :
    Option (Record × StreamState) :=
  let c := st.cycle + 1
  let fast := computeFast battery_wh inp
  match (if c % 5 = 1 then computeSlow inp.pm_out else some st.cache) with
  | none => none
  | some cache => some (⟨fast, cache⟩, ⟨c, cache⟩)

/-- Run the stream loop over a list of tick inputs, collecting the
emitted records; `none` as soon as some tick panics. -/
def runStream (battery_wh : ℚ) : StreamState → List TickInput → Option (List Record × StreamState)
  | st, [] => some ([], st)
  | st, inp :: rest =>
    match streamTick battery_wh st inp with
    | none => none
    | some (r, st2) =>
      match runStream battery_wh st2 rest with
      | none => none
      | some (rs, stF) => some (r :: rs, stF)

/-! ### Smoothing & change detection -/

/-- A change event: the deviation magnitude and the smoothed value it was
measured at. -/
structure ChangeEvent where
  deviation : ℚ
  value : ℚ
deriving DecidableEq, Repr

/-- The detector state of spec §3: EMA value, last stable reference,
quiet counter. -/
structure SmoothingState where
  smoothed : ℚ
  last_stable : ℚ
  quiet_counter : Nat
deriving DecidableEq, Repr

/-- Modelled from the spec: the EMA smoothing & change-detection step of
§4.4 (absolute-threshold form) is not present under `src/` — of the
detector only the strict threshold comparison of `blind_scan.rs` is in
the sources; the EMA state machine lives in the excluded shell layer.
Per the spec: smooth with `α`, compare `|smoothed − last_stable|` against
the threshold strictly, on exceedance emit one event carrying
`{deviation, smoothed}` and re-baseline with a reset quiet counter,
otherwise bump the quiet counter and re-baseline silently once it
exceeds `quietLimit`. -/
def detectorStep (a thr : ℚ) (quietLimit : Nat) (st : SmoothingState) (x : ℚ) :
    SmoothingState × Option ChangeEvent :=
  let sm := a * x + (1 - a) * st.smoothed
  let dev := |sm - st.last_stable|
  if thr < dev then
    (⟨sm, sm, 0⟩, some ⟨dev, sm⟩)
  else
    let qc := st.quiet_counter + 1
    if quietLimit < qc then (⟨sm, sm, 0⟩, none)
    else (⟨sm, st.last_stable, qc⟩, none)

/-! ### Key ↔ string conversion (main.rs:7-19) -/

/-- The four big-endian bytes of a u32 (`key.0.to_be_bytes()`). -/
def toBeBytes (k : Nat) : List Nat :=
  [k / 2 ^ 24 % 256, k / 2 ^ 16 % 256, k / 2 ^ 8 % 256, k % 256]

/-- The replacement character U+FFFD. -/
def replChar : Char := Char.ofNat 0xFFFD

/-- `String::from_utf8_lossy` as the incremental WHATWG UTF-8 decoder:
`needed` pending continuation bytes, partial code point `cp`, and the
admissible range `lower..upper` for the next byte; each maximal invalid
subsequence yields one U+FFFD. -/
def utf8Run : List Nat → Nat → Nat → Nat → Nat → List Char
  | [], needed, _, _, _ => if needed = 0 then [] else [replChar]
  | b :: bs, 0, _, _, _ =>
    if b ≤ 0x7F then Char.ofNat b :: utf8Run bs 0 0 0x80 0xBF
    else if 0xC2 ≤ b ∧ b ≤ 0xDF then utf8Run bs 1 (b - 0xC0) 0x80 0xBF
    else if b = 0xE0 then utf8Run bs 2 0 0xA0 0xBF
    else if 0xE1 ≤ b ∧ b ≤ 0xEC then utf8Run bs 2 (b - 0xE0) 0x80 0xBF
    else if b = 0xED then utf8Run bs 2 (b - 0xE0) 0x80 0x9F
    else if 0xEE ≤ b ∧ b ≤ 0xEF then utf8Run bs 2 (b - 0xE0) 0x80 0xBF
    else if b = 0xF0 then utf8Run bs 3 0 0x90 0xBF
    else if 0xF1 ≤ b ∧ b ≤ 0xF3 then utf8Run bs 3 (b - 0xF0) 0x80 0xBF
    else if b = 0xF4 then utf8Run bs 3 (b - 0xF0) 0x80 0x8F
    else replChar :: utf8Run bs 0 0 0x80 0xBF
  | b :: bs, needed + 1, cp, lower, upper =>
    if lower ≤ b ∧ b ≤ upper then
      if needed = 0 then Char.ofNat (cp * 64 + (b - 0x80)) :: utf8Run bs 0 0 0x80 0xBF
      else utf8Run bs needed (cp * 64 + (b - 0x80)) 0x80 0xBF
    else replChar :: utf8Run (b :: bs) 0 0 0x80 0xBF
termination_by l needed _ _ _ => (l.length, needed)

/-- Lossy UTF-8 decoding of a byte list. -/
def utf8Lossy (bs : List Nat) : List Char := utf8Run bs 0 0 0x80 0xBF

/-- `key_to_string` (main.rs:7-10): lossy decoding of the big-endian
bytes. -/
def key_to_string (k : Nat) : List Char := utf8Lossy (toBeBytes k)

/-- UTF-8 encoding of one character (`str::as_bytes` is the
concatenation over the string's characters). -/
def encodeChar (c : Char) : List Nat :=
  let n := c.toNat
  if n < 0x80 then [n]
  else if n < 0x800 then [0xC0 + n / 64, 0x80 + n % 64]
  else if n < 0x10000 then [0xE0 + n / 4096, 0x80 + n / 64 % 64, 0x80 + n % 64]
  else [0xF0 + n / 262144, 0x80 + n / 4096 % 64, 0x80 + n / 64 % 64, 0x80 + n % 64]

/-- `str::as_bytes`: the UTF-8 bytes of the string. -/
def utf8Encode (s : List Char) : List Nat :=
  s.foldr (fun c acc => encodeChar c ++ acc) []

/-- `string_to_key` (main.rs:12-19): pack the first four UTF-8 bytes
big-endian (the shift-or of disjoint byte fields, written
arithmetically); `none` where the source would panic on indexing a
string of fewer than four bytes. -/
def string_to_key (s : List Char) : Option Nat :=
  match utf8Encode s with
  | b0 :: b1 :: b2 :: b3 :: _ => some (b0 * 2 ^ 24 + b1 * 2 ^ 16 + b2 * 2 ^ 8 + b3)
  | _ => none

/-! ### Helper lemmas -/

/-- The push-loop of the single-zone modes is the in-range filter. -/
theorem collectTemps_go (lo hi : ℚ) :
    ∀ (rs acc : List ℚ),
      rs.foldl (fun acc t => if lo < t ∧ t < hi then acc ++ [t] else acc) acc =
        acc ++ rs.filter (fun t => decide (lo < t ∧ t < hi))
  | [], acc => by simp
  | t :: rs, acc => by
    by_cases h : lo < t ∧ t < hi
    · simp [List.foldl_cons, if_pos h, collectTemps_go lo hi rs, List.filter_cons, h]
    · simp [List.foldl_cons, if_neg h, collectTemps_go lo hi rs, List.filter_cons, h]

/-- One step of the composite collection loop appends the reading to
exactly the list of its classified zone. -/
theorem jsonCollectStep_fields (acc : ZoneLists) (r : Key4 × Option ℚ) :
    jsonCollectStep acc r =
      ⟨acc.cpu_temps ++ (zoneContribution Zone.cpu r).toList,
       acc.gpu_temps ++ (zoneContribution Zone.gpu r).toList,
       acc.mem_temps ++ (zoneContribution Zone.memory r).toList,
       acc.ssd_temps ++ (zoneContribution Zone.storage r).toList,
       acc.bat_temps ++ (zoneContribution Zone.battery r).toList⟩ := by
  obtain ⟨k, t?⟩ := r
  obtain ⟨l1, l2, l3, l4, l5⟩ := acc
  cases t? with
  | none => simp [jsonCollectStep, zoneContribution]
  | some t =>
    by_cases hT : k.b0 = asciiT
    · by_cases hR : 0 < t ∧ t < 150
      · by_cases h1 : (startsWith2 k 84 112 || startsWith2 k 84 101 || startsWith2 k 84 99) = true
        · simp [jsonCollectStep, zoneContribution, jsonClassify, hT, hR, h1]
        · by_cases h2 : startsWith2 k 84 103 = true
          · simp [jsonCollectStep, zoneContribution, jsonClassify, hT, hR, h1, h2]
          · by_cases h3 : (startsWith2 k 84 77 || startsWith2 k 84 109) = true
            · simp [jsonCollectStep, zoneContribution, jsonClassify, hT, hR, h1, h2, h3]
            · by_cases h4 : (startsWith2 k 84 83 || isTSCD k) = true
              · simp [jsonCollectStep, zoneContribution, jsonClassify, hT, hR, h1, h2, h3, h4]
              · by_cases h5 : startsWith2 k 84 66 = true
                · simp [jsonCollectStep, zoneContribution, jsonClassify, hT, hR, h1, h2, h3, h4, h5]
                · simp [jsonCollectStep, zoneContribution, jsonClassify, hT, hR, h1, h2, h3, h4, h5]
      · simp [jsonCollectStep, zoneContribution, jsonClassify, hT, hR]
    · simp [jsonCollectStep, zoneContribution, jsonClassify, hT]

/-- The composite collection loop, with the accumulator generalized. -/
theorem jsonCollect_go :
    ∀ (rs : List (Key4 × Option ℚ)) (acc : ZoneLists),
      rs.foldl jsonCollectStep acc =
        ⟨acc.cpu_temps ++ rs.filterMap (zoneContribution Zone.cpu),
         acc.gpu_temps ++ rs.filterMap (zoneContribution Zone.gpu),
         acc.mem_temps ++ rs.filterMap (zoneContribution Zone.memory),
         acc.ssd_temps ++ rs.filterMap (zoneContribution Zone.storage),
         acc.bat_temps ++ rs.filterMap (zoneContribution Zone.battery)⟩
  | [], acc => by simp
  | r :: rs, acc => by
    rw [List.foldl_cons, jsonCollect_go rs, jsonCollectStep_fields]
    simp only [List.filterMap_cons, ZoneLists.mk.injEq]
    refine ⟨?_, ?_, ?_, ?_, ?_⟩
    · cases zoneContribution Zone.cpu r <;> simp
    · cases zoneContribution Zone.gpu r <;> simp
    · cases zoneContribution Zone.memory r <;> simp
    · cases zoneContribution Zone.storage r <;> simp
    · cases zoneContribution Zone.battery r <;> simp

/-- `jsonCollect` from the empty accumulator: each zone list is exactly
the readings the total classifier assigns to that zone. -/
theorem jsonCollect_fields (rs : List (Key4 × Option ℚ)) :
    jsonCollect rs =
      ⟨rs.filterMap (zoneContribution Zone.cpu), rs.filterMap (zoneContribution Zone.gpu),
       rs.filterMap (zoneContribution Zone.memory), rs.filterMap (zoneContribution Zone.storage),
       rs.filterMap (zoneContribution Zone.battery)⟩ := by
  rw [jsonCollect, jsonCollect_go]
  rfl

/-- A reading kept by `zoneContribution` is strictly inside (0,150). -/
theorem zoneContribution_range (z : Zone) (r : Key4 × Option ℚ) (t : ℚ)
    (h : zoneContribution z r = some t) : 0 < t ∧ t < 150 := by
  obtain ⟨k, t?⟩ := r
  cases t? with
  | none => simp [zoneContribution] at h
  | some u =>
    simp only [zoneContribution] at h
    split_ifs at h with hc
    · obtain rfl : u = t := Option.some.inj h
      exact ⟨hc.2.1, hc.2.2⟩

/-- The mean of a nonempty list of positive readings is positive. -/
theorem jsonZoneAvg_pos (ts : List ℚ) (hne : ts ≠ []) (hpos : ∀ t ∈ ts, 0 < t) :
    0 < jsonZoneAvg ts := by
  rw [jsonZoneAvg, if_neg (by simpa [List.isEmpty_iff] using hne)]
  apply div_pos (List.sum_pos ts hpos hne)
  exact_mod_cast List.length_pos.mpr hne

/-- A nonempty collected zone list has a positive average. -/
theorem zoneAvg_pos_of_filterMap (z : Zone) (rs : List (Key4 × Option ℚ))
    (ts : List ℚ) (hts : ts = rs.filterMap (zoneContribution z)) (hne : ts ≠ []) :
    0 < jsonZoneAvg ts := by
  refine jsonZoneAvg_pos ts hne fun t ht => ?_
  rw [hts] at ht
  obtain ⟨r, _, hr⟩ := List.mem_filterMap.mp ht
  exact (zoneContribution_range z r t hr).1

/-- `Char.ofNat` is inverted by `toNat` on ASCII code points. -/
theorem charToNat_ofNat (b : Nat) (hb : b < 128) : (Char.ofNat b).toNat = b := by
  have h : b < 55296 ∨ 57343 < b ∧ b < 1114112 := Or.inl (by omega)
  simp [Char.ofNat, dif_pos h, Char.ofNatAux, Char.toNat, UInt32.toNat, UInt32.ofNatCore,
    BitVec.ofNatLt]

/-- Lossy UTF-8 decoding of ASCII bytes is the bytewise character map. -/
theorem utf8Run_ascii :
    ∀ bs : List Nat, (∀ b ∈ bs, b < 128) → utf8Run bs 0 0 0x80 0xBF = bs.map Char.ofNat
  | [], _ => by simp [utf8Run]
  | b :: bs, h => by
    have hb : b ≤ 0x7F := by
      have := h b (by simp)
      omega
    rw [utf8Run, if_pos hb, utf8Run_ascii bs (fun x hx => h x (by simp [hx]))]
    rfl

/-- UTF-8 encoding of an ASCII character is its single code-point byte. -/
theorem encodeChar_ascii (b : Nat) (hb : b < 128) : encodeChar (Char.ofNat b) = [b] := by
  rw [encodeChar, charToNat_ofNat b hb]
  simp [hb]

/-! ### Claim theorems -/

/-- Claim C1, counterexample: the residual-power operation of the source
does not return `max(0, total − sum(components))` — at total 12.5 W and
components 3, 2 and 0.5 W it returns 7000 (milliwatts, the residual times
1000), not the residual 7. -/
theorem c1_units_counterexample :
    get_display_power (some 12.5) (some 3) (some 2) (some 0.5) ≠
      max 0 (12.5 - (3 + 2 + 0.5)) := by
  norm_num [get_display_power]

/-- Claim C1, amended: `get_display_power` takes a total and exactly
three component readings (cpu, gpu, mem, each defaulting to 0 when the
read fails) and returns `max(total − cpu − gpu − mem, 0) * 1000`,
i.e. the zero-floored residual converted to milliwatts; for total 12.5
and components 3, 2, 0.5 it returns 7000 (= 7 W), for components summing
above the total it returns 0, and for all inputs whatsoever the result
is ≥ 0. -/
theorem c1_residual_power_amended :
    (∀ pstr cpu gpu mem : Option ℚ,
      get_display_power pstr cpu gpu mem =
        max ((pstr.getD 0) - ((cpu.getD 0) + (gpu.getD 0) + (mem.getD 0))) 0 * 1000 ∧
      0 ≤ get_display_power pstr cpu gpu mem) ∧
    get_display_power (some 12.5) (some 3) (some 2) (some 0.5) = 7000 ∧
    get_display_power (some 12.5) (some 6) (some 4) (some 3) = 0 := by
  refine ⟨fun p c g m => ⟨?_, ?_⟩, by norm_num [get_display_power],
    by norm_num [get_display_power]⟩
  · rw [get_display_power, show p.getD 0 - c.getD 0 - g.getD 0 - m.getD 0 =
      p.getD 0 - (c.getD 0 + g.getD 0 + m.getD 0) by ring]
  · exact mul_nonneg (le_max_right _ _) (by norm_num)

/-- Claim C2: in the stream loop with cadence 5, a tick whose count is
not ≡ 1 (mod 5) emits the record whose slow half is exactly the cached
slow fields and whose fast half is freshly computed, leaving the cache
untouched; a tick with count ≡ 1 (mod 5) recomputes the slow fields from
that tick's powermetrics text; consequently a five-tick run from the
start carries tick 1's slow fields verbatim through ticks 2–5, while
tick 6 (the next boundary) may differ. -/
theorem c2_dual_cadence :
    (∀ (bw : ℚ) (st : StreamState) (inp : TickInput), (st.cycle + 1) % 5 ≠ 1 →
      streamTick bw st inp =
        some (⟨computeFast bw inp, st.cache⟩, ⟨st.cycle + 1, st.cache⟩)) ∧
    (∀ (bw : ℚ) (st : StreamState) (inp : TickInput), (st.cycle + 1) % 5 = 1 →
      streamTick bw st inp =
        (computeSlow inp.pm_out).map (fun c => (⟨computeFast bw inp, c⟩, ⟨st.cycle + 1, c⟩))) ∧
    (∀ (bw : ℚ) (i1 i2 i3 i4 i5 : TickInput) (c : SlowFields),
      computeSlow i1.pm_out = some c →
      runStream bw initState [i1, i2, i3, i4, i5] =
        some ([⟨computeFast bw i1, c⟩, ⟨computeFast bw i2, c⟩, ⟨computeFast bw i3, c⟩,
               ⟨computeFast bw i4, c⟩, ⟨computeFast bw i5, c⟩], ⟨5, c⟩)) ∧
    (∃ (bw : ℚ) (i1 i2 i3 i4 i5 i6 : TickInput) (r1 r2 r3 r4 r5 r6 : Record)
       (stF : StreamState),
       runStream bw initState [i1, i2, i3, i4, i5, i6] = some ([r1, r2, r3, r4, r5, r6], stF) ∧
       r6.slow ≠ r1.slow) := by
  refine ⟨fun bw st inp h => ?_, fun bw st inp h => ?_, fun bw i1 i2 i3 i4 i5 c h => ?_, ?_⟩
  · rw [streamTick]
    simp [if_neg h]
  · rw [streamTick]
    simp only [if_pos h]
    cases computeSlow inp.pm_out <;> simp
  · simp [runStream, streamTick, initState, h]
  · have h1 : computeSlow ([] : List Char) = some initCache := by decide
    have h7 : computeSlow (strLit "CPU Power: 7 mW") = some ⟨7, 0, 0, FV.num 0, [], []⟩ := by
      decide
    refine ⟨0, ⟨none, [], [], [], []⟩, ⟨none, [], [], [], []⟩, ⟨none, [], [], [], []⟩,
      ⟨none, [], [], [], []⟩, ⟨none, [], [], [], []⟩,
      ⟨none, [], [], [], strLit "CPU Power: 7 mW"⟩,
      ⟨computeFast 0 ⟨none, [], [], [], []⟩, initCache⟩,
      ⟨computeFast 0 ⟨none, [], [], [], []⟩, initCache⟩,
      ⟨computeFast 0 ⟨none, [], [], [], []⟩, initCache⟩,
      ⟨computeFast 0 ⟨none, [], [], [], []⟩, initCache⟩,
      ⟨computeFast 0 ⟨none, [], [], [], []⟩, initCache⟩,
      ⟨computeFast 0 ⟨none, [], [], [], strLit "CPU Power: 7 mW"⟩, ⟨7, 0, 0, FV.num 0, [], []⟩⟩,
      ⟨6, ⟨7, 0, 0, FV.num 0, [], []⟩⟩, ?_, ?_⟩
    · simp [runStream, streamTick, initState, h1, h7]
    · decide

/-- Claim C2, witness: a concrete five-tick run (all collaborator texts
empty) whose boundary tick yields the initial cache; all five emitted
records carry the same slow fields. -/
theorem c2_dual_cadence_witness :
    computeSlow (TickInput.mk none [] [] [] []).pm_out = some initCache ∧
    runStream 0 initState
        [⟨none, [], [], [], []⟩, ⟨none, [], [], [], []⟩, ⟨none, [], [], [], []⟩,
         ⟨none, [], [], [], []⟩, ⟨none, [], [], [], []⟩] =
      some ([⟨computeFast 0 ⟨none, [], [], [], []⟩, initCache⟩,
             ⟨computeFast 0 ⟨none, [], [], [], []⟩, initCache⟩,
             ⟨computeFast 0 ⟨none, [], [], [], []⟩, initCache⟩,
             ⟨computeFast 0 ⟨none, [], [], [], []⟩, initCache⟩,
             ⟨computeFast 0 ⟨none, [], [], [], []⟩, initCache⟩], ⟨5, initCache⟩) :=
  ⟨by decide, c2_dual_cadence.2.2.1 0 _ _ _ _ _ initCache (by decide)⟩

/-- Claim C3, counterexample: the key "TC01" (bytes 84, 67, 48, 49) is
accepted by the `cpu` mode primary filter but is not classified CPU by
the composite json/stream classifier (it falls through to
Unclassified) — the call sites do not agree on every key. -/
theorem c3_tc_key_counterexample :
    cpuModeMatch ⟨84, 67, 48, 49⟩ = true ∧ jsonClassify ⟨84, 67, 48, 49⟩ ≠ Zone.cpu := by
  decide

/-- Claim C3, amended: the single-zone primary filters and the composite
json/stream classifier agree on every key that starts with neither "TC"
nor "TG": such a key is accepted by a zone's single-reading filter iff
the composite classifier assigns it that zone (first matching rule wins,
rules ordered CPU > GPU > Memory > Storage > Battery), and the json and
stream classifier chains are identical.  The `cpu` mode additionally
accepts "TC…" keys and the `gpu` mode additionally accepts "TG…" keys,
both of which the composite classifier sends to Unclassified. -/
theorem c3_classify_agreement_amended (k : Key4)
    (hTC : ¬(k.b0 = 84 ∧ k.b1 = 67)) (hTG : ¬(k.b0 = 84 ∧ k.b1 = 71)) :
    (cpuModeMatch k = true ↔ jsonClassify k = Zone.cpu) ∧
    (gpuModeMatch k = true ↔ jsonClassify k = Zone.gpu) ∧
    (memoryModeMatch k = true ↔ jsonClassify k = Zone.memory) ∧
    (ssdModeMatch k = true ↔ jsonClassify k = Zone.storage) ∧
    (batteryModeMatch k = true ↔ jsonClassify k = Zone.battery) ∧
    (∀ k2 : Key4, streamClassify k2 = jsonClassify k2) := by
  obtain ⟨b0, b1, b2, b3⟩ := k
  refine ⟨?_, ?_, ?_, ?_, ?_, fun k2 => rfl⟩ <;>
  · simp only [cpuModeMatch, gpuModeMatch, memoryModeMatch, ssdModeMatch, batteryModeMatch,
      jsonClassify, startsWith2, isTSCD, asciiT] at *
    split_ifs <;> simp_all <;> omega

/-- Claim C3, witness: for the key "Tp01" the cpu-mode filter and the
composite classifier agree. -/
theorem c3_classify_agreement_witness :
    ¬((84 : Nat) = 84 ∧ (112 : Nat) = 67) ∧
    (cpuModeMatch ⟨84, 112, 48, 49⟩ = true ↔ jsonClassify ⟨84, 112, 48, 49⟩ = Zone.cpu) :=
  ⟨by decide, (c3_classify_agreement_amended ⟨84, 112, 48, 49⟩ (by decide) (by decide)).1⟩

/-- A powermetrics tasks table with a NaN cpu_ms field: both rows pass
the PID/field-count checks, "NaN" parses as an `f64`, and the process
sort's `partial_cmp(...).unwrap()` then panics. -/
def badPm : List Char :=
  strLit "Name  ID\nfoo 1 NaN 0.0 0.0 0.0 5.0 0.0\nbar 2 1.0 0.0 0.0 0.0 3.0 0.0\n"

/-- A stream tick whose slow-channel collaborator returns `badPm`. -/
def badTick : TickInput := ⟨none, [], [], [], badPm⟩

/-- Claim C4 (code bug): the stream loop does NOT survive every
collaborator text — on a tasks table containing a NaN cpu_ms value the
slow-channel processing panics (`Option::unwrap` on the `None` that
`f64::partial_cmp` returns for NaN, main.rs:584) and the tick aborts
instead of emitting a record, contradicting the spec's requirement that
malformed collaborator output must not abort the tick. -/
theorem c4_nan_aborts_tick :
    computeSlow badPm = none ∧ streamTick 1 initState badTick = none := by
  decide

/-- Claim C5, counterexample: in `json`/`stream` mode an empty zone is
not surfaced as a marker distinct from a numeric zero — the zone average
substituted for an empty reading list is the plain number 0. -/
theorem c5_json_zero_counterexample : jsonZoneAvg [] = 0 := by
  decide

/-- Claim C5, amended: the single-reading modes do surface the explicit
marker — the aggregate is `none` exactly when the filtered set is empty,
and the command then prints "N/A"; the composite json/stream modes
instead substitute the numeric default 0.0 with no separate marker.
Because only strictly positive readings pass the range filter, a
nonempty zone's average is strictly positive, so 0.0 can still only mean
"no sensor reading" there. -/
theorem c5_empty_zone_amended :
    (∀ rs, cpuModeOut rs = CliOut.na ↔ collectTemps 0 150 rs = []) ∧
    (∀ rs, aggregateZone 0 150 rs = none ↔ collectTemps 0 150 rs = []) ∧
    jsonZoneAvg [] = 0 ∧
    (∀ rs : List (Key4 × Option ℚ), (jsonCollect rs).cpu_temps ≠ [] →
      0 < jsonZoneAvg ((jsonCollect rs).cpu_temps)) ∧
    (∀ rs : List (Key4 × Option ℚ), (jsonCollect rs).gpu_temps ≠ [] →
      0 < jsonZoneAvg ((jsonCollect rs).gpu_temps)) ∧
    (∀ rs : List (Key4 × Option ℚ), (jsonCollect rs).mem_temps ≠ [] →
      0 < jsonZoneAvg ((jsonCollect rs).mem_temps)) ∧
    (∀ rs : List (Key4 × Option ℚ), (jsonCollect rs).ssd_temps ≠ [] →
      0 < jsonZoneAvg ((jsonCollect rs).ssd_temps)) ∧
    (∀ rs : List (Key4 × Option ℚ), (jsonCollect rs).bat_temps ≠ [] →
      0 < jsonZoneAvg ((jsonCollect rs).bat_temps)) := by
  have hagg : ∀ rs, aggregateZone 0 150 rs = none ↔ collectTemps 0 150 rs = [] := by
    intro rs
    rw [aggregateZone]
    by_cases h : (collectTemps 0 150 rs).isEmpty = true
    · simp [h, List.isEmpty_iff.mp h]
    · simp only [if_neg h]
      simp [List.isEmpty_iff] at h
      simp [h]
  refine ⟨fun rs => ?_, hagg, by decide,
    fun rs h => zoneAvg_pos_of_filterMap Zone.cpu rs _ (by rw [jsonCollect_fields]) h,
    fun rs h => zoneAvg_pos_of_filterMap Zone.gpu rs _ (by rw [jsonCollect_fields]) h,
    fun rs h => zoneAvg_pos_of_filterMap Zone.memory rs _ (by rw [jsonCollect_fields]) h,
    fun rs h => zoneAvg_pos_of_filterMap Zone.storage rs _ (by rw [jsonCollect_fields]) h,
    fun rs h => zoneAvg_pos_of_filterMap Zone.battery rs _ (by rw [jsonCollect_fields]) h⟩
  constructor
  · intro h
    cases hag : aggregateZone 0 150 rs with
    | none => exact (hagg rs).mp hag
    | some a => simp [cpuModeOut, hag] at h
  · intro h
    rw [cpuModeOut, (hagg rs).mpr h]

/-- Claim C5, witness: a single in-range CPU key reading produces a
strictly positive composite average. -/
theorem c5_empty_zone_witness :
    (jsonCollect [(⟨84, 112, 48, 49⟩, some 45)]).cpu_temps ≠ [] ∧
    0 < jsonZoneAvg ((jsonCollect [(⟨84, 112, 48, 49⟩, some 45)]).cpu_temps) :=
  ⟨by decide, c5_empty_zone_amended.2.2.2.1 [(⟨84, 112, 48, 49⟩, some 45)] (by decide)⟩

/-- Claim C6: the zone aggregator keeps exactly the readings strictly
inside the exclusive valid range, returns their equally weighted
arithmetic mean when at least one survives, and on the scenario readings
45, 55, 1000 with range (0,150) returns 50 with the out-of-range 1000
excluded. -/
theorem c6_zone_aggregator :
    (∀ lo hi rs, collectTemps lo hi rs = rs.filter (fun t => decide (lo < t ∧ t < hi))) ∧
    (∀ lo hi rs, collectTemps lo hi rs ≠ [] →
      aggregateZone lo hi rs =
        some ((collectTemps lo hi rs).sum / (collectTemps lo hi rs).length)) ∧
    aggregateZone 0 150 [45, 55, 1000] = some 50 := by
  refine ⟨fun lo hi rs => ?_, fun lo hi rs h => ?_, by norm_num [aggregateZone, collectTemps]⟩
  · simpa [collectTemps] using collectTemps_go lo hi rs []
  · rw [aggregateZone, if_neg (by simpa [List.isEmpty_iff] using h)]

/-- Claim C6, witness: the scenario reading set has survivors, and the
aggregate is their mean. -/
theorem c6_zone_aggregator_witness :
    collectTemps 0 150 [45, 55, 1000] ≠ [] ∧
    aggregateZone 0 150 [45, 55, 1000] =
      some ((collectTemps 0 150 [45, 55, 1000]).sum /
            (collectTemps 0 150 [45, 55, 1000]).length) :=
  ⟨by decide, c6_zone_aggregator.2.1 0 150 [45, 55, 1000] (by decide)⟩

/-- Claim C7: composite classification is a deterministic total
function — each zone list built by the json/stream collection loop is
exactly the set of successfully read, in-range readings whose key the
total classifier `jsonClassify` assigns to that zone, so a reading
contributes to at most one zone and readings classified Unclassified
(or failing the range/read) are dropped from aggregation. -/
theorem c7_classifier_totality (rs : List (Key4 × Option ℚ)) :
    (jsonCollect rs).cpu_temps = rs.filterMap (zoneContribution Zone.cpu) ∧
    (jsonCollect rs).gpu_temps = rs.filterMap (zoneContribution Zone.gpu) ∧
    (jsonCollect rs).mem_temps = rs.filterMap (zoneContribution Zone.memory) ∧
    (jsonCollect rs).ssd_temps = rs.filterMap (zoneContribution Zone.storage) ∧
    (jsonCollect rs).bat_temps = rs.filterMap (zoneContribution Zone.battery) := by
  rw [jsonCollect_fields]
  exact ⟨rfl, rfl, rfl, rfl, rfl⟩

/-- Claim C8: the change-detection comparisons are strict.  For the
spec-modelled EMA detector, a deviation exactly at the threshold emits
no event, while a strictly larger deviation emits exactly one event
carrying the deviation and smoothed value and resets the reference and
quiet counter; the in-source delta scan of blind_scan.rs likewise does
not report a delta of exactly 500 and reports any strictly larger one. -/
theorem c8_threshold_strict :
    (∀ (a thr : ℚ) (qlim : Nat) (st : SmoothingState) (x : ℚ),
      |a * x + (1 - a) * st.smoothed - st.last_stable| = thr →
      (detectorStep a thr qlim st x).2 = none) ∧
    (∀ (a thr : ℚ) (qlim : Nat) (st : SmoothingState) (x : ℚ),
      thr < |a * x + (1 - a) * st.smoothed - st.last_stable| →
      (detectorStep a thr qlim st x).2 =
        some ⟨|a * x + (1 - a) * st.smoothed - st.last_stable|,
              a * x + (1 - a) * st.smoothed⟩ ∧
      (detectorStep a thr qlim st x).1.last_stable = a * x + (1 - a) * st.smoothed ∧
      (detectorStep a thr qlim st x).1.quiet_counter = 0) ∧
    (∀ val base : ℚ, |val - base| = 500 → blindScanMatch val base = false) ∧
    (∀ val base : ℚ, 500 < |val - base| → blindScanMatch val base = true) := by
  refine ⟨fun a thr qlim st x h => ?_, fun a thr qlim st x h => ?_,
    fun val base h => ?_, fun val base h => ?_⟩
  · rw [detectorStep]
    simp only [h, lt_irrefl, if_false]
    split <;> rfl
  · rw [detectorStep]
    simp [if_pos h]
  · simp [blindScanMatch, h]
  · simp [blindScanMatch, h]

/-- Claim C8, witness: a delta of exactly 500 does not fire; 501 does. -/
theorem c8_threshold_strict_witness :
    |(1500 : ℚ) - 1000| = 500 ∧ blindScanMatch 1500 1000 = false ∧
    500 < |(1501 : ℚ) - 1000| ∧ blindScanMatch 1501 1000 = true :=
  ⟨by norm_num, c8_threshold_strict.2.2.1 1500 1000 (by norm_num), by norm_num,
   c8_threshold_strict.2.2.2 1501 1000 (by norm_num)⟩

/-- Claim C9: for a 32-bit key whose four big-endian bytes are all
ASCII, `key_to_string` yields the 4-character string of exactly those
bytes and `string_to_key` inverts it. -/
theorem c9_key_roundtrip (k : Nat) (hk : k < 2 ^ 32)
    (hascii : ∀ b ∈ toBeBytes k, b < 128) :
    string_to_key (key_to_string k) = some k ∧
    (key_to_string k).length = 4 ∧
    utf8Encode (key_to_string k) = toBeBytes k := by
  have h0 : k / 2 ^ 24 % 256 < 128 := hascii _ (by simp [toBeBytes])
  have h1 : k / 2 ^ 16 % 256 < 128 := hascii _ (by simp [toBeBytes])
  have h2 : k / 2 ^ 8 % 256 < 128 := hascii _ (by simp [toBeBytes])
  have h3 : k % 256 < 128 := hascii _ (by simp [toBeBytes])
  have hdec : key_to_string k =
      [Char.ofNat (k / 2 ^ 24 % 256), Char.ofNat (k / 2 ^ 16 % 256),
       Char.ofNat (k / 2 ^ 8 % 256), Char.ofNat (k % 256)] := by
    rw [key_to_string, utf8Lossy, utf8Run_ascii _ (by simpa [toBeBytes] using hascii)]
    simp [toBeBytes]
  have henc : utf8Encode (key_to_string k) = toBeBytes k := by
    rw [hdec, utf8Encode]
    simp only [List.foldr_cons, List.foldr_nil]
    rw [encodeChar_ascii _ h0, encodeChar_ascii _ h1, encodeChar_ascii _ h2,
      encodeChar_ascii _ h3]
    rfl
  refine ⟨?_, by rw [hdec]; rfl, henc⟩
  rw [string_to_key, henc, toBeBytes]
  simp only [Option.some.injEq]
  omega

/-- Claim C9, witness: the key 0x54703031 ("Tp01") round-trips. -/
theorem c9_key_roundtrip_witness :
    (0x54703031 : Nat) < 2 ^ 32 ∧
    string_to_key (key_to_string 0x54703031) = some 0x54703031 :=
  ⟨by norm_num, (c9_key_roundtrip 0x54703031 (by norm_num) (by decide)).1⟩

/-- Claim C10: the efficiency field equals `battery_wh / sys_power` only
under the guard `sys_power > 0.1` — in which case the denominator is
nonzero — and is the sentinel 99.0 otherwise; the stream fast channel
computes exactly this on the (default-0) system power reading.  (The
json-mode expression, main.rs:363-364, is the identical formula.) -/
theorem c10_efficiency_guard :
    (∀ bw sp : ℚ, 1/10 < sp → efficiencyCalc bw sp = bw / sp ∧ sp ≠ 0) ∧
    (∀ bw sp : ℚ, ¬(1/10 < sp) → efficiencyCalc bw sp = 99) ∧
    (∀ (bw : ℚ) (inp : TickInput),
      (computeFast bw inp).efficiency_hrs = efficiencyCalc bw (inp.pstr.getD 0)) := by
  refine ⟨fun bw sp h => ⟨by rw [efficiencyCalc, if_pos h], ?_⟩,
    fun bw sp h => by rw [efficiencyCalc, if_neg h], fun bw inp => rfl⟩
  exact ne_of_gt (lt_trans (by norm_num) h)

/-- Claim C10, witness: at 5 W the division branch is taken with a
nonzero denominator. -/
theorem c10_efficiency_guard_witness :
    (1 : ℚ)/10 < 5 ∧ efficiencyCalc 57 5 = 57 / 5 ∧ (5 : ℚ) ≠ 0 :=
  ⟨by norm_num, (c10_efficiency_guard.1 57 5 (by norm_num)).1,
   (c10_efficiency_guard.1 57 5 (by norm_num)).2⟩
